import Mathlib

/-!
Verification of the material-tools build pipeline (`src/lib/MaterialTools.ts`
and the `LocalResolver` contract exercised by `src/tests/local-resolver.spec.ts`).

The TypeScript code is shallowly embedded: JS numbers used by the version
comparison are modelled as exact rationals, fallible operations return
`Option`/`Except`, and filesystem reads / external compilers are passed in
as explicit function arguments.
-/

namespace MaterialTools

/-- A decimal digit character, as tested by the character class `[0-9]`
(code points 48 through 57). -/
def isDigitChar (c : Char) : Bool := 48 ≤ c.toNat ∧ c.toNat ≤ 57

/-- Numeric value of a digit character. -/
def digitVal (c : Char) : Nat := c.toNat - 48

/-- Value of `parseInt` on an already matched, non-empty digit list. -/
def digitsToNat (ds : List Char) : Nat :=
  ds.foldl (fun acc c => 10 * acc + digitVal c) 0

/-- Greedily take the leading run of digit characters (the `[0-9]+` atom). -/
def takeDigits : List Char → List Char × List Char
  | [] => ([], [])
  | c :: cs =>
    if isDigitChar c then
      let (ds, rest) := takeDigits cs
      (c :: ds, rest)
    else ([], c :: cs)

/-- Match of the optional suffix `(?:-rc(?:.|-)([0-9]+))?` of
`versionDigitRegex` at the head of the character list: literal `-rc`,
one arbitrary character (`.` matches any character, and `-` is subsumed
by it), then one or more digits, captured. Returns the captured
release-candidate number, or `none` when the group does not match
(the group is optional, so the overall match still succeeds). -/
def matchRC : List Char → Option Nat
  | '-' :: 'r' :: 'c' :: _ :: rest =>
    match takeDigits rest with
    | ([], _) => none
    | (ds, _) => some (digitsToNat ds)
  | _ => none

/-- Attempt to match `versionDigitRegex =
`/([0-9])\.([0-9])\.([0-9])(?:-rc(?:.|-)([0-9]+))?/`` anchored at the head
of the character list, returning the three captured digits and the
optional release-candidate capture. -/
def matchVersionAt : List Char → Option (Nat × Nat × Nat × Option Nat)
  | a :: b :: c :: d :: e :: rest =>
    if isDigitChar a ∧ b = '.' ∧ isDigitChar c ∧ d = '.' ∧ isDigitChar e then
      some (digitVal a, digitVal c, digitVal e, matchRC rest)
    else none
  | _ => none

/-- JavaScript `String.prototype.match` searches for the leftmost
position where the regular expression matches. -/
def findVersionMatch : List Char → Option (Nat × Nat × Nat × Option Nat)
  | [] => none
  | c :: rest =>
    match matchVersionAt (c :: rest) with
    | some m => some m
    | none => findVersionMatch rest

/-- Test for a substring of the form digit dot digit dot digit starting
at the head of the character list. This is the mandatory part of
`versionDigitRegex` (the release-candidate group is optional and can
never make a match fail). -/
def tripleAt : List Char → Bool
  | a :: b :: c :: d :: e :: _ =>
    decide (isDigitChar a ∧ b = '.' ∧ isDigitChar c ∧ d = '.' ∧ isDigitChar e)
  | _ => false

/-- Test for a substring of the form digit dot digit dot digit anywhere
in the character list. -/
def hasVersionTriple : List Char → Bool
  | [] => false
  | a :: rest => tripleAt (a :: rest) || hasVersionTriple rest

/-- The arithmetic of `_getVersionNumber` after the regex match:
`versionNumber = parseInt(digits.join(""))` is `100*major + 10*minor +
patch` (each capture is a single digit), and when the rc capture parsed
to a truthy number (present and nonzero, since `parseInt` of a missing
capture is `NaN` and both `NaN` and `0` are falsy in `if (rcVersion)`)
the key becomes `(versionNumber - 1) + rcVersion / (rcVersion > 9 ? 100
: 1000)`. JS floating point is modelled exactly over `ℚ`. -/
def versionKeyCore (ma mi pa : Nat) : Option Nat → ℚ
  | none => 100 * ma + 10 * mi + pa
  | some n =>
    if n = 0 then 100 * ma + 10 * mi + pa
    else (100 * (ma : ℚ) + 10 * mi + pa - 1) + (n : ℚ) / (if n > 9 then 100 else 1000)

/-- Model of `_getVersionNumber(version)`: match `versionDigitRegex` against the
version string and compute the numeric comparison key. When the regex
does not match anywhere, the JS code dereferences `null` and throws,
modelled as `none`. -/
def getVersionNumber (version : String) : Option ℚ :=
  (findVersionMatch version.data).map fun m =>
    versionKeyCore m.1 m.2.1 m.2.2.1 m.2.2.2

/-- A structured semantic version (major.minor.patch with an optional
release-candidate number), used to state the ordering the spec demands. -/
structure SemVer where
  major : Nat
  minor : Nat
  patch : Nat
  rc : Option Nat

/-- Ordering of the optional release-candidate component: any release
candidate sorts below the final release (`none`), and candidates sort by
their number. -/
def rcLt : Option Nat → Option Nat → Prop
  | some n, some m => n < m
  | some _, none => True
  | none, some _ => False
  | none, none => False

/-- The total order on semantic versions demanded by the spec:
lexicographic on major, minor, patch, with release candidates of a
version sorting strictly below the final version. -/
def semverLt (a b : SemVer) : Prop :=
  a.major < b.major ∨ (a.major = b.major ∧
    (a.minor < b.minor ∨ (a.minor = b.minor ∧
      (a.patch < b.patch ∨ (a.patch = b.patch ∧ rcLt a.rc b.rc)))))

/-- Model of `path.basename`: the part of the path after the final slash. -/
def basename (p : String) : String :=
  String.mk ((p.data.reverse.takeWhile (fun c => c ≠ '/')).reverse)

/-- The lists of resolved build files handed to `_buildStaticTheme`
(interface `LocalBuildFiles`): package root plus the per-kind path
lists, each in module order. -/
structure LocalBuildFiles where
  root : String
  js : List String
  css : List String
  scss : List String
  themes : List String

/-- JavaScript `Array.prototype.join(sep)`: elements interleaved with
the separator (empty string for the empty array). -/
def joinLines (sep : String) : List String → String
  | [] => ""
  | [l] => l
  | l :: ls => l ++ sep ++ joinLines sep ls

/-- The base SCSS file-name list assembled by `_buildStaticTheme` (lines
140 to 149): always `variables.scss` and `mixins.scss`, and additionally
`themes.scss` pushed at the end exactly when
`_getVersionNumber() < _getVersionNumber('1.1.0')`. `none` models the
exception thrown when the build version does not match the regex. -/
def staticBaseSCSSFiles (version : String) : Option (List String) :=
  (getVersionNumber version).bind fun key =>
    (getVersionNumber "1.1.0").map fun key110 =>
      if key < key110 then ["variables.scss", "mixins.scss", "themes.scss"]
      else ["variables.scss", "mixins.scss"]

/-- Model of `_buildStaticTheme` (lines 135 to 165): with no configured theme
builder the function returns `undefined`; otherwise it filters the
resolved SCSS files to those whose basename is in the base file-name
list, concatenates their contents, appends the concatenated contents of
all theme files, compiles the result and hands it to the theme builder.
`read` models `fse.readFileSync(...).toString()`, `compileSCSS` models
`CSSBuilder._compileSCSS` and the optional `tb` models
`this.themeBuilder.build`. -/
def buildStaticTheme (read compileSCSS : String → String)
    (tb : Option (String → String)) (version : String)
    (buildFiles : LocalBuildFiles) : Option String :=
  tb.bind fun themeBuilderBuild =>
    (staticBaseSCSSFiles version).map fun baseSCSSFiles =>
      let scssFiles := buildFiles.scss.filter fun file =>
        baseSCSSFiles.contains (basename file)
      let scssBaseContent := joinLines "" (scssFiles.map read)
      let themeSCSS := joinLines "" (buildFiles.themes.map read)
      themeBuilderBuild (compileSCSS (scssBaseContent ++ themeSCSS))

/-- Substring search: does `pat` occur as a contiguous run inside `s`?
Models JavaScript `s.indexOf(pat) !== -1`. -/
def hasInfix (pat : List Char) : List Char → Bool
  | [] => pat.isEmpty
  | c :: rest => pat.isPrefixOf (c :: rest) || hasInfix pat rest

/-- String-level substring test. -/
def strContains (s pat : String) : Bool := hasInfix pat.data s.data

/-- String-level substring statement: `pat` occurs contiguously in `s`. -/
def containsStr (s pat : String) : Prop := pat.data <:+: s.data

instance (s pat : String) : Decidable (containsStr s pat) := by
  unfold containsStr; infer_instance

/-- Modelled from the spec: the minified-file marker test of
`LocalResolver` (source file `lib/resolvers/LocalResolver.ts` is not
under `src/`; only its Jasmine test is). A file is minified when its
name contains the marker `.min.`. -/
def isMinified (file : String) : Bool := strContains file ".min."

/-- File-extension test (name ends with the given extension). -/
def hasExt (file ext : String) : Bool := ext.data.isSuffixOf file.data

/-- Modelled from the spec: the theme-file naming pattern of
`LocalResolver` (for example `tooltip-default-theme.css`): the name
contains `-theme`. -/
def isThemeFile (file : String) : Bool := strContains file "-theme"

/-- The per-module file lists produced by `LocalResolver.resolve`. -/
structure ResolvedFiles where
  js : List String
  css : List String
  themes : List String
deriving DecidableEq

/-- Modelled from the spec: `LocalResolver` classification of one module
directory (its file listing): minified files are always excluded; the
non-minified `.js` files are the JS sources and there must be exactly
one of them (zero or several is an `InvalidModuleLayoutError`);
non-minified stylesheets not matching the theme naming pattern are the
CSS sources (zero is valid); stylesheets matching the theme pattern are
the theme sources. -/
def resolveModule (files : List String) : Except String ResolvedFiles :=
  let nonMinified := files.filter fun f => ! isMinified f
  let js := nonMinified.filter fun f => hasExt f ".js"
  let css := nonMinified.filter fun f =>
    (hasExt f ".css" || hasExt f ".scss") && ! isThemeFile f
  let themes := nonMinified.filter fun f =>
    (hasExt f ".css" || hasExt f ".scss") && isThemeFile f
  if js.length = 1 then Except.ok ⟨js, css, themes⟩
  else Except.error "InvalidModuleLayoutError"

/-- Modelled from the spec: `LocalResolver.resolve` over the ordered
module list — each module directory is classified and the per-kind
lists are aggregated in module order; any per-module failure rejects
the whole resolution. -/
def resolveModules : List (List String) → Except String ResolvedFiles
  | [] => Except.ok ⟨[], [], []⟩
  | m :: ms =>
    match resolveModule m, resolveModules ms with
    | Except.ok r, Except.ok rest =>
      Except.ok ⟨r.js ++ rest.js, r.css ++ rest.css, r.themes ++ rest.themes⟩
    | Except.error e, _ => Except.error e
    | Except.ok _, Except.error e => Except.error e

/-- Model of `_getLicense` (lines 179 to 197): the banner lines, each prefixed
with ` * `, wrapped in `/*!` and ` */` plus a trailing blank line,
joined by newlines. The wall-clock year read from
`new Date().getFullYear()` is an explicit argument. -/
def licenseLines (version : String) (modules : List String) (year : Nat) : List String :=
  ["Angular Material Design",
   "https://github.com/angular/material",
   "@license MIT",
   "v" ++ version,
   "Built with: material-tools",
   "Includes modules: " ++ joinLines ", " modules,
   "",
   "Copyright " ++ toString year ++ " Google Inc. All Rights Reserved.",
   "Use of this source code is governed by an MIT-style license that can be " ++
     "found in the LICENSE file at http://material.angularjs.org/LICENSE."]

/-- Model of `_getLicense`, continued: the banner is the lines above, each
prefixed with ` * `, wrapped in `/*!` and ` */` plus a trailing blank
line, joined by newlines. -/
def getLicense (version : String) (modules : List String) (year : Nat) : String :=
  joinLines "\n"
    (["/*!"] ++
      ((licenseLines version modules year).map (fun line => " * " ++ line)) ++
      [" */", "\n"])

/-- Output of `JSBuilder.build`: concatenated source, minified form and
the source map (interface `MaterialToolsOutput`). -/
structure JSOut where
  source : String
  compressed : String
  map : String
deriving DecidableEq

/-- One CSS variant: plain and minified text. -/
structure CSSVariant where
  source : String
  compressed : String
deriving DecidableEq

/-- Output of `CSSBuilder.build`: the with-layout and no-layout variants. -/
structure CSSOut where
  layout : CSSVariant
  noLayout : CSSVariant
deriving DecidableEq

/-- The file writes performed by `build` (lines 47 to 93), as pairs of
destination-relative file name and written content, in program order:
the LICENSE copy (verbatim content of the package-root LICENSE file),
then each `_writeFile` call, whose content is `license ++ content` with
the license argument defaulting to the empty string for the source-map
write; the two theme writes happen exactly when a theme is configured. -/
def buildWrites (base licenseFileContent : String) (js : JSOut) (css : CSSOut)
    (theme : Option CSSVariant) (license : String) : List (String × String) :=
  [("LICENSE", licenseFileContent),
   (base ++ ".js", license ++ js.source),
   (base ++ ".min.js", license ++ js.compressed),
   (base ++ ".min.js.map", "" ++ js.map),
   (base ++ ".css", license ++ css.layout.source),
   (base ++ ".min.css", license ++ css.layout.compressed),
   (base ++ "-no-layout.css", license ++ css.noLayout.source),
   (base ++ "-no-layout.min.css", license ++ css.noLayout.compressed)] ++
  (match theme with
   | some t => [(base ++ "-theme.min.css", license ++ t.compressed),
                (base ++ "-theme.css", license ++ t.source)]
   | none => [])

/-- The constructor options object (interface `MaterialToolsOptions`);
every field is optional, mirroring the TypeScript interface. The theme
payload is irrelevant here and modelled as an opaque string. -/
structure MaterialToolsOptions where
  destination : Option String
  modules : Option (List String)
  version : Option String
  theme : Option String
  mainFilename : Option String
  cache : Option String
  destinationFilename : Option String
deriving DecidableEq

/-- The defaults loop of the constructor (lines 27 to 31) with the
`DEFAULTS` object (lines 225 to 230): every `undefined` field that has a
default receives it; `destination`, `modules` and `theme` have no
default. -/
def applyDefaults (o : MaterialToolsOptions) : MaterialToolsOptions :=
  { o with
    version := some (o.version.getD "node")
    mainFilename := some (o.mainFilename.getD "angular-material.js")
    cache := some (o.cache.getD "./.material-cache/")
    destinationFilename := some (o.destinationFilename.getD "angular-material") }

/-- The constructor of `MaterialTools` (lines 19 to 42): with no options
it throws `No options have been specified.`; otherwise defaults are
applied and, when no destination is configured, it throws `You have to
specify a destination.` (`path.resolve` on the destination is an
external primitive, modelled as the identity). -/
def mkMaterialTools (opts : Option MaterialToolsOptions) :
    Except String MaterialToolsOptions :=
  match opts with
  | none => Except.error "No options have been specified."
  | some o =>
    let od := applyDefaults o
    match od.destination with
    | some _ => Except.ok od
    | none => Except.error "You have to specify a destination."

/-- Construction followed by resolution: `build` only reaches the
resolver chain (`_getData`) on an instance, so resolution runs only
after the constructor succeeded. -/
def initThenResolve {α : Type} (opts : Option MaterialToolsOptions)
    (resolver : MaterialToolsOptions → Except String α) : Except String α :=
  (mkMaterialTools opts).bind resolver

example : getVersionNumber "1.1.0" = some (versionKeyCore 1 1 0 none) := rfl
example : getVersionNumber "1.2.0" = some (versionKeyCore 1 2 0 none) := rfl
example : getVersionNumber "1.1.0-rc.1" = some (versionKeyCore 1 1 0 (some 1)) := rfl
example : getVersionNumber "1.1.0-rc.100" = some (versionKeyCore 1 1 0 (some 100)) := rfl
example : getVersionNumber "1.10.0" = none := by decide
example : getVersionNumber "11.2.3" = some (versionKeyCore 1 2 3 none) := rfl
example : getVersionNumber "1.0.9-rc.2000" = some (versionKeyCore 1 0 9 (some 2000)) := rfl
example : versionKeyCore 1 1 0 none = 110 := by norm_num [versionKeyCore]
example : versionKeyCore 1 1 0 (some 1) = 109 + 1 / 1000 := by norm_num [versionKeyCore]
example : versionKeyCore 1 1 0 (some 100) = 110 := by norm_num [versionKeyCore]
example : versionKeyCore 1 0 9 (some 2000) = 128 := by norm_num [versionKeyCore]

/-- The numeric key of a release candidate with number between 1 and 99
is strictly below the key of the corresponding final release. -/
lemma versionKeyCore_rc_lt (ma mi pa n : Nat) (hn1 : 1 ≤ n) (hn2 : n ≤ 99) :
    versionKeyCore ma mi pa (some n) < versionKeyCore ma mi pa none := by
  have hn0 : ¬ (n = 0) := by omega
  simp only [versionKeyCore, if_neg hn0]
  have hdpos : (0:ℚ) < if n > 9 then (100:ℚ) else 1000 := by split <;> norm_num
  have hnd : (n:ℚ) < if n > 9 then (100:ℚ) else 1000 := by
    split
    · exact_mod_cast (by omega : n < 100)
    · exact_mod_cast (by omega : n < 1000)
  have hq : (n:ℚ) / (if n > 9 then (100:ℚ) else 1000) < 1 := (div_lt_one hdpos).mpr hnd
  linarith

/-- C1 (amended): for every version `X.Y.Z` and every release-candidate
number `1 ≤ n ≤ 99`, the comparison key computed by `_getVersionNumber`
for `X.Y.Z-rc.n` is strictly less than the key for `X.Y.Z`; in
particular the keys of `1.1.0-rc.1`, `1.1.0` and `1.2.0` are strictly
increasing. (The original universal claim over all `n ≥ 1` fails at
`n = 100`.) -/
theorem rc_key_lt_release_key (ma mi pa n : Nat) (hn1 : 1 ≤ n) (hn2 : n ≤ 99) :
    versionKeyCore ma mi pa (some n) < versionKeyCore ma mi pa none ∧
    getVersionNumber "1.1.0-rc.1" = some (versionKeyCore 1 1 0 (some 1)) ∧
    getVersionNumber "1.1.0" = some (versionKeyCore 1 1 0 none) ∧
    getVersionNumber "1.2.0" = some (versionKeyCore 1 2 0 none) ∧
    versionKeyCore 1 1 0 (some 1) < versionKeyCore 1 1 0 none ∧
    versionKeyCore 1 1 0 none < versionKeyCore 1 2 0 none :=
  ⟨versionKeyCore_rc_lt ma mi pa n hn1 hn2, rfl, rfl, rfl,
    versionKeyCore_rc_lt 1 1 0 1 (by norm_num) (by norm_num),
    by norm_num [versionKeyCore]⟩

/-- Witness for C1 at `1.1.0-rc.5` versus `1.1.0`. -/
theorem rc_key_lt_release_key_witness :
    versionKeyCore 1 1 0 (some 5) < versionKeyCore 1 1 0 none ∧
    getVersionNumber "1.1.0-rc.1" = some (versionKeyCore 1 1 0 (some 1)) ∧
    getVersionNumber "1.1.0" = some (versionKeyCore 1 1 0 none) ∧
    getVersionNumber "1.2.0" = some (versionKeyCore 1 2 0 none) ∧
    versionKeyCore 1 1 0 (some 1) < versionKeyCore 1 1 0 none ∧
    versionKeyCore 1 1 0 none < versionKeyCore 1 2 0 none :=
  rc_key_lt_release_key 1 1 0 5 (by norm_num) (by norm_num)

/-- C1 counterexample: at release-candidate number 100 the key of
`1.1.0-rc.100` equals the key of `1.1.0` (both are 110), so the
candidate does not sort strictly below the final release. -/
theorem rc100_key_not_lt_release_key :
    getVersionNumber "1.1.0-rc.100" = some (versionKeyCore 1 1 0 (some 100)) ∧
    getVersionNumber "1.1.0" = some (versionKeyCore 1 1 0 none) ∧
    versionKeyCore 1 1 0 (some 100) = versionKeyCore 1 1 0 none ∧
    ¬ (versionKeyCore 1 1 0 (some 100) < versionKeyCore 1 1 0 none) := by
  refine ⟨rfl, rfl, ?_, ?_⟩ <;> norm_num [versionKeyCore]

/-- A position where the mandatory digit dot digit dot digit pattern
fails yields no anchored regex match. -/
lemma matchVersionAt_none_of_tripleAt_false (l : List Char)
    (h : tripleAt l = false) : matchVersionAt l = none := by
  match l with
  | [] => rfl
  | [a] => rfl
  | [a, b] => rfl
  | [a, b, c] => rfl
  | [a, b, c, d] => rfl
  | a :: b :: c :: d :: e :: rest =>
    have hP : ¬ (isDigitChar a ∧ b = '.' ∧ isDigitChar c ∧ d = '.' ∧ isDigitChar e) :=
      of_decide_eq_false h
    simp only [matchVersionAt, if_neg hP]

/-- A character list with no digit dot digit dot digit substring has no
regex match at any position. -/
lemma findVersionMatch_none_of_no_triple (l : List Char)
    (h : hasVersionTriple l = false) : findVersionMatch l = none := by
  induction l with
  | nil => rfl
  | cons a rest ih =>
    rw [hasVersionTriple, Bool.or_eq_false_iff] at h
    rw [findVersionMatch, matchVersionAt_none_of_tripleAt_false (a :: rest) h.1]
    exact ih h.2

/-- C10 (amended): `_getVersionNumber` is partial: for every version
string containing no substring of the form digit dot digit dot digit
(such as `1.10.0`) the regex match is null and the function throws; a
string with a multi-digit component can nevertheless match on a
single-digit substring, so `11.2.3` returns the key of `1.2.3` instead
of throwing. -/
theorem getVersionNumber_partial_single_digit :
    (∀ s : String, hasVersionTriple s.data = false → getVersionNumber s = none) ∧
    hasVersionTriple "1.10.0".data = false ∧
    getVersionNumber "1.10.0" = none ∧
    getVersionNumber "1.2.3" = some (versionKeyCore 1 2 3 none) ∧
    getVersionNumber "11.2.3" = some (versionKeyCore 1 2 3 none) := by
  refine ⟨?_, by decide, by decide, rfl, rfl⟩
  intro s h
  simp [getVersionNumber, findVersionMatch_none_of_no_triple s.data h]

/-- Witness for C10: the universal no-triple case applied at `1.10.0`. -/
theorem getVersionNumber_partial_single_digit_witness :
    getVersionNumber "1.10.0" = none :=
  getVersionNumber_partial_single_digit.1 "1.10.0" (by decide)

/-- C10 counterexample: `11.2.3` has a multi-digit major component, yet
the regex match is not null — the function returns the comparison key
of the matched substring `1.2.3` instead of throwing. -/
theorem getVersionNumber_multidigit_matches :
    getVersionNumber "11.2.3" = some (versionKeyCore 1 2 3 none) ∧
    getVersionNumber "11.2.3" ≠ none := by
  have h : getVersionNumber "11.2.3" = some (versionKeyCore 1 2 3 none) := rfl
  exact ⟨h, by rw [h]; simp⟩

/-- A character accepted by `[0-9]` has digit value at most 9. -/
lemma digitVal_le_9 (c : Char) (h : isDigitChar c = true) : digitVal c ≤ 9 := by
  simp only [isDigitChar, decide_eq_true_eq] at h
  simp only [digitVal]
  omega

/-- The three components captured by `versionDigitRegex` are single
digits, hence at most 9 each. -/
lemma matchVersionAt_digits_le (l : List Char) (ma mi pa : Nat) (rc : Option Nat)
    (h : matchVersionAt l = some (ma, mi, pa, rc)) : ma ≤ 9 ∧ mi ≤ 9 ∧ pa ≤ 9 := by
  match l with
  | [] => simp [matchVersionAt] at h
  | [a] => simp [matchVersionAt] at h
  | [a, b] => simp [matchVersionAt] at h
  | [a, b, c] => simp [matchVersionAt] at h
  | [a, b, c, d] => simp [matchVersionAt] at h
  | a :: b :: c :: d :: e :: rest =>
    simp only [matchVersionAt] at h
    split at h
    · rename_i hd
      injection h with h
      simp only [Prod.mk.injEq] at h
      obtain ⟨h1, h2, h3, h4⟩ := h
      refine ⟨?_, ?_, ?_⟩
      · rw [← h1]; exact digitVal_le_9 a hd.1
      · rw [← h2]; exact digitVal_le_9 c hd.2.2.1
      · rw [← h3]; exact digitVal_le_9 e hd.2.2.2.2
    · exact absurd h (by simp)

/-- The leftmost regex match also yields single-digit components. -/
lemma findVersionMatch_digits_le (l : List Char) (ma mi pa : Nat) (rc : Option Nat)
    (h : findVersionMatch l = some (ma, mi, pa, rc)) : ma ≤ 9 ∧ mi ≤ 9 ∧ pa ≤ 9 := by
  induction l with
  | nil => simp [findVersionMatch] at h
  | cons c rest ih =>
    rw [findVersionMatch] at h
    cases hm : matchVersionAt (c :: rest) with
    | some m =>
      rw [hm] at h
      injection h with h
      exact matchVersionAt_digits_le (c :: rest) ma mi pa rc (by rw [hm, h])
    | none =>
      rw [hm] at h
      exact ih h

/-- With single-digit components and a release-candidate number of at
most 99, the numeric key is below the key of `1.1.0` exactly when the
structured version sorts strictly below `1.1.0` in the spec order. -/
lemma key_lt_110_iff (ma mi pa : Nat) (rc : Option Nat)
    (hma : ma ≤ 9) (hmi : mi ≤ 9) (hpa : pa ≤ 9)
    (hrc : rc = none ∨ ∃ n, rc = some n ∧ 1 ≤ n ∧ n ≤ 99) :
    (versionKeyCore ma mi pa rc < versionKeyCore 1 1 0 none ↔
      semverLt ⟨ma, mi, pa, rc⟩ ⟨1, 1, 0, none⟩) := by
  have h110 : versionKeyCore 1 1 0 none = 110 := by norm_num [versionKeyCore]
  rw [h110]
  rcases hrc with hrc | ⟨n, hrc, hn1, hn2⟩
  · subst hrc
    have hcast : (versionKeyCore ma mi pa none < 110) ↔ (100 * ma + 10 * mi + pa < 110) := by
      simp only [versionKeyCore]
      constructor
      · intro h; exact_mod_cast h
      · intro h; exact_mod_cast h
    rw [hcast]
    have hsem : semverLt ⟨ma, mi, pa, none⟩ ⟨1, 1, 0, none⟩ ↔
        (ma < 1 ∨ (ma = 1 ∧ (mi < 1 ∨ (mi = 1 ∧ (pa < 0 ∨ (pa = 0 ∧ False)))))) := Iff.rfl
    rw [hsem]
    simp only [and_false, or_false]
    omega
  · subst hrc
    have hn0 : ¬ (n = 0) := by omega
    have hsem : semverLt ⟨ma, mi, pa, some n⟩ ⟨1, 1, 0, none⟩ ↔
        (ma < 1 ∨ (ma = 1 ∧ (mi < 1 ∨ (mi = 1 ∧ (pa < 0 ∨ (pa = 0 ∧ True)))))) := Iff.rfl
    rw [hsem]
    simp only [and_true]
    simp only [versionKeyCore, if_neg hn0]
    have hdpos : (0:ℚ) < if n > 9 then (100:ℚ) else 1000 := by split <;> norm_num
    have hq0 : (0:ℚ) < (n:ℚ) / (if n > 9 then (100:ℚ) else 1000) := by
      apply div_pos _ hdpos
      exact_mod_cast (by omega : 0 < n)
    have hq1 : (n:ℚ) / (if n > 9 then (100:ℚ) else 1000) < 1 := by
      apply (div_lt_one hdpos).mpr
      split
      · exact_mod_cast (by omega : n < 100)
      · exact_mod_cast (by omega : n < 1000)
    constructor
    · intro h
      have hV : ((100 * ma + 10 * mi + pa : ℕ) : ℚ) < 111 := by push_cast; linarith
      have hVn : 100 * ma + 10 * mi + pa < 111 := by exact_mod_cast hV
      omega
    · intro h
      have hVn : 100 * ma + 10 * mi + pa ≤ 110 := by omega
      have hV : ((100 * ma + 10 * mi + pa : ℕ) : ℚ) ≤ 110 := by exact_mod_cast hVn
      push_cast at hV
      linarith

/-- C2 (amended): for a build version matching the regex with components
`(ma, mi, pa, rc)` where the release-candidate number, if present, is
between 1 and 99, `_buildStaticTheme` includes `themes.scss` in the base
SCSS set exactly when the version sorts strictly below `1.1.0`, and not
when it equals `1.1.0` or is later. (The original claim, quantified
over all versions, fails for release-candidate numbers of 100 or more.) -/
theorem themesScss_iff_before_110 (version : String) (ma mi pa : Nat) (rc : Option Nat)
    (hm : findVersionMatch version.data = some (ma, mi, pa, rc))
    (hrc : rc = none ∨ ∃ n, rc = some n ∧ 1 ≤ n ∧ n ≤ 99) :
    ∃ l, staticBaseSCSSFiles version = some l ∧
      ("themes.scss" ∈ l ↔ semverLt ⟨ma, mi, pa, rc⟩ ⟨1, 1, 0, none⟩) := by
  obtain ⟨hma, hmi, hpa⟩ := findVersionMatch_digits_le version.data ma mi pa rc hm
  have hv : getVersionNumber version = some (versionKeyCore ma mi pa rc) := by
    simp [getVersionNumber, hm]
  have h110 : getVersionNumber "1.1.0" = some (versionKeyCore 1 1 0 none) := rfl
  have hiff := key_lt_110_iff ma mi pa rc hma hmi hpa hrc
  by_cases hlt : versionKeyCore ma mi pa rc < versionKeyCore 1 1 0 none
  · refine ⟨["variables.scss", "mixins.scss", "themes.scss"], ?_, ?_⟩
    · simp [staticBaseSCSSFiles, hv, h110, if_pos hlt]
    · exact iff_of_true (by decide) (hiff.mp hlt)
  · refine ⟨["variables.scss", "mixins.scss"], ?_, ?_⟩
    · simp [staticBaseSCSSFiles, hv, h110, if_neg hlt]
    · exact iff_of_false (by decide) (fun hs => hlt (hiff.mpr hs))

/-- Witness for C2 at version `1.0.3` (strictly before `1.1.0`). -/
theorem themesScss_iff_before_110_witness :
    ∃ l, staticBaseSCSSFiles "1.0.3" = some l ∧
      ("themes.scss" ∈ l ↔ semverLt ⟨1, 0, 3, none⟩ ⟨1, 1, 0, none⟩) :=
  themesScss_iff_before_110 "1.0.3" 1 0 3 none (by decide) (Or.inl rfl)

/-- C2 counterexample: version `1.0.9-rc.2000` sorts strictly below
`1.1.0` in the spec order, yet its numeric key is 128, so the quirk
comparison `key < 110` is false and `themes.scss` is not included. -/
theorem themesScss_quirk_counterexample :
    semverLt ⟨1, 0, 9, some 2000⟩ ⟨1, 1, 0, none⟩ ∧
    staticBaseSCSSFiles "1.0.9-rc.2000" = some ["variables.scss", "mixins.scss"] := by
  constructor
  · exact Or.inr ⟨rfl, Or.inl (by norm_num)⟩
  · have hv : getVersionNumber "1.0.9-rc.2000" = some (versionKeyCore 1 0 9 (some 2000)) := rfl
    have h110 : getVersionNumber "1.1.0" = some (versionKeyCore 1 1 0 none) := rfl
    have hk : versionKeyCore 1 0 9 (some 2000) = 128 := by norm_num [versionKeyCore]
    have hk110 : versionKeyCore 1 1 0 none = 110 := by norm_num [versionKeyCore]
    simp only [staticBaseSCSSFiles, hv, h110, Option.some_bind, Option.map_some', hk, hk110]
    rw [if_neg (by norm_num)]

/-- C3: with a theme configured, the static theme input is the contents
of exactly the resolved SCSS files whose basename is in the fixed base
name list, concatenated in order, followed by the contents of all
resolved theme files in module order; the concatenation is compiled and
the result is passed to the theme builder. -/
theorem buildStaticTheme_assembly (read compileSCSS themeBuilderBuild : String → String)
    (version : String) (buildFiles : LocalBuildFiles) (base : List String)
    (hv : staticBaseSCSSFiles version = some base) :
    buildStaticTheme read compileSCSS (some themeBuilderBuild) version buildFiles =
      some (themeBuilderBuild (compileSCSS
        (joinLines "" ((buildFiles.scss.filter fun file =>
            base.contains (basename file)).map read) ++
         joinLines "" (buildFiles.themes.map read)))) := by
  simp [buildStaticTheme, hv]

/-- Witness for C3 at version `1.1.0` with two resolved SCSS files and
one theme file. -/
theorem buildStaticTheme_assembly_witness :
    staticBaseSCSSFiles "1.1.0" = some ["variables.scss", "mixins.scss"] ∧
    buildStaticTheme id id (some id) "1.1.0"
        ⟨"root", [], [], ["lib/variables.scss", "lib/layout.scss"], ["lib/core-default-theme.scss"]⟩ =
      some (id (id
        (joinLines "" (((["lib/variables.scss", "lib/layout.scss"] : List String).filter fun file =>
            (["variables.scss", "mixins.scss"] : List String).contains (basename file)).map id) ++
         joinLines "" ((["lib/core-default-theme.scss"] : List String).map id)))) := by
  have h110 : getVersionNumber "1.1.0" = some (versionKeyCore 1 1 0 none) := rfl
  have h : staticBaseSCSSFiles "1.1.0" = some ["variables.scss", "mixins.scss"] := by
    simp only [staticBaseSCSSFiles, h110, Option.some_bind, Option.map_some']
    rw [if_neg (lt_irrefl _)]
  exact ⟨h, buildStaticTheme_assembly id id id "1.1.0" _ _ h⟩

/-- C4: a module with exactly one non-minified JS file and no
non-minified stylesheet resolves successfully with empty css and theme
lists, while a module with zero non-minified JS files always rejects
with the invalid-layout error; JS is never silently skipped. -/
theorem resolve_zero_css_ok_zero_js_rejects (files gs : List String)
    (hjs : ((files.filter fun f => ! isMinified f).filter fun f => hasExt f ".js").length = 1)
    (hcss : (files.filter fun f => ! isMinified f).filter
        (fun f => hasExt f ".css" || hasExt f ".scss") = [])
    (hgs : (gs.filter fun f => ! isMinified f).filter (fun f => hasExt f ".js") = []) :
    (∃ js, resolveModule files = Except.ok ⟨js, [], []⟩) ∧
    resolveModule gs = Except.error "InvalidModuleLayoutError" := by
  constructor
  · refine ⟨(files.filter fun f => ! isMinified f).filter fun f => hasExt f ".js", ?_⟩
    have hcss2 : ((files.filter fun f => ! isMinified f).filter fun f =>
        (hasExt f ".css" || hasExt f ".scss") && ! isThemeFile f) = [] := by
      rw [List.filter_eq_nil_iff] at hcss ⊢
      intro a ha hpa
      refine hcss a ha ?_
      revert hpa
      cases hasExt a ".css" <;> cases hasExt a ".scss" <;> cases isThemeFile a <;> simp
    have hth2 : ((files.filter fun f => ! isMinified f).filter fun f =>
        (hasExt f ".css" || hasExt f ".scss") && isThemeFile f) = [] := by
      rw [List.filter_eq_nil_iff] at hcss ⊢
      intro a ha hpa
      refine hcss a ha ?_
      revert hpa
      cases hasExt a ".css" <;> cases hasExt a ".scss" <;> cases isThemeFile a <;> simp
    simp only [resolveModule]
    rw [hcss2, hth2, if_pos hjs]
  · simp only [resolveModule]
    rw [if_neg (by rw [hgs]; simp)]

/-- Witness for C4: a JS-only module resolves with empty lists; a
CSS-only module rejects. -/
theorem resolve_zero_css_ok_zero_js_rejects_witness :
    (∃ js, resolveModule ["tooltip.js", "tooltip.min.js", "README.md"] =
      Except.ok ⟨js, [], []⟩) ∧
    resolveModule ["style.css"] = Except.error "InvalidModuleLayoutError" :=
  resolve_zero_css_ok_zero_js_rejects ["tooltip.js", "tooltip.min.js", "README.md"]
    ["style.css"] (by decide) (by decide) (by decide)

/-- Every path in any list produced by a successful per-module
classification is non-minified. -/
lemma resolveModule_not_minified (m : List String) (r : ResolvedFiles)
    (h : resolveModule m = Except.ok r) :
    ∀ p, (p ∈ r.js ∨ p ∈ r.css ∨ p ∈ r.themes) → isMinified p = false := by
  obtain ⟨rjs, rcss, rth⟩ := r
  intro p hp
  simp only [resolveModule] at h
  split at h
  · injection h with h
    simp only [ResolvedFiles.mk.injEq] at h
    obtain ⟨h1, h2, h3⟩ := h
    subst h1
    subst h2
    subst h3
    have hmem : p ∈ m.filter fun f => ! isMinified f := by
      rcases hp with hp | hp | hp
      · exact (List.mem_filter.mp hp).1
      · exact (List.mem_filter.mp hp).1
      · exact (List.mem_filter.mp hp).1
    have hnm := (List.mem_filter.mp hmem).2
    simpa using hnm
  · exact absurd h (by simp)

/-- C5: no path returned by a successful resolution, in any of the js,
css or theme lists, contains the minified-file marker `.min.`. -/
theorem resolve_excludes_minified (mods : List (List String)) (r : ResolvedFiles)
    (h : resolveModules mods = Except.ok r) :
    ∀ p, (p ∈ r.js ∨ p ∈ r.css ∨ p ∈ r.themes) → strContains p ".min." = false := by
  induction mods generalizing r with
  | nil =>
    simp only [resolveModules] at h
    injection h with h
    subst h
    intro p hp
    simp at hp
  | cons m ms ih =>
    simp only [resolveModules] at h
    cases hm : resolveModule m with
    | error e =>
      rw [hm] at h
      exact absurd h (by simp)
    | ok rm =>
      cases hms : resolveModules ms with
      | error e =>
        rw [hm, hms] at h
        exact absurd h (by simp)
      | ok rrest =>
        rw [hm, hms] at h
        injection h with h
        subst h
        intro p hp
        have hsplit : (p ∈ rm.js ∨ p ∈ rm.css ∨ p ∈ rm.themes) ∨
            (p ∈ rrest.js ∨ p ∈ rrest.css ∨ p ∈ rrest.themes) := by
          rcases hp with hp | hp | hp <;> rcases List.mem_append.mp hp with hp | hp <;> tauto
        rcases hsplit with hp | hp
        · exact resolveModule_not_minified m rm hm p hp
        · exact ih rrest hms p hp

/-- Witness for C5 on a fixture directory mixing minified and
non-minified files. -/
theorem resolve_excludes_minified_witness :
    strContains "tooltip.css" ".min." = false :=
  resolve_excludes_minified
    [["tooltip.js", "tooltip.min.js", "tooltip.css", "tooltip.min.css", "tooltip-default-theme.css"]]
    ⟨["tooltip.js"], ["tooltip.css"], ["tooltip-default-theme.css"]⟩ (by rfl)
    "tooltip.css" (Or.inr (Or.inl (by decide)))

/-- Every element of a joined list occurs contiguously in the join. -/
lemma joinLines_infix_of_mem (sep : String) (ls : List String) (l : String) (h : l ∈ ls) :
    l.data <:+: (joinLines sep ls).data := by
  induction ls with
  | nil => simp at h
  | cons x ys ih =>
    cases ys with
    | nil =>
      have hx : l = x := by simpa using h
      subst hx
      exact List.infix_refl _
    | cons y rest =>
      rcases List.mem_cons.mp h with hhead | htail
      · subst hhead
        have h1 : l.data <+: (l ++ sep).data := by
          rw [String.data_append]; exact List.prefix_append _ _
        have h2 : (l ++ sep).data <+: ((l ++ sep) ++ joinLines sep (y :: rest)).data := by
          rw [String.data_append]; exact List.prefix_append _ _
        exact (h1.trans h2).isInfix
      · have hsuf : (joinLines sep (y :: rest)).data <:+
            ((x ++ sep) ++ joinLines sep (y :: rest)).data := by
          rw [String.data_append]; exact List.suffix_append _ _
        exact (ih htail).trans hsuf.isInfix

/-- Any pattern occurring in one of the banner lines occurs in the full
generated banner. -/
lemma getLicense_contains (version : String) (modules : List String) (year : Nat)
    (pat line : String) (hline : line ∈ licenseLines version modules year)
    (hpat : pat.data <:+: line.data) :
    containsStr (getLicense version modules year) pat := by
  unfold containsStr getLicense
  have hm : (" * " ++ line) ∈
      (["/*!"] ++ ((licenseLines version modules year).map (fun l => " * " ++ l)) ++
        [" */", "\n"]) := by
    apply List.mem_append_left
    apply List.mem_append_right
    exact List.mem_map_of_mem _ hline
  have hstep : line.data <:+: (" * " ++ line).data := by
    rw [String.data_append]; exact (List.suffix_append _ _).isInfix
  exact (hpat.trans hstep).trans (joinLines_infix_of_mem _ _ _ hm)

/-- C6: every write of `build` carries the generated license banner as a
prefix, except the LICENSE copy and the source-map artifact; the map is
written with its content unmodified; and the banner contains the product
name, repository reference, license identifier, resolved version, tool
name, included module list and a copyright line with the current year. -/
theorem build_writes_banner (version : String) (modules : List String) (year : Nat)
    (base licContent : String) (js : JSOut) (css : CSSOut) (theme : Option CSSVariant)
    (f c : String)
    (hmem : (f, c) ∈ buildWrites base licContent js css theme (getLicense version modules year))
    (hfL : f ≠ "LICENSE") (hfm : f ≠ base ++ ".min.js.map") :
    (∃ body, c = getLicense version modules year ++ body) ∧
    (base ++ ".min.js.map", js.map) ∈
      buildWrites base licContent js css theme (getLicense version modules year) ∧
    containsStr (getLicense version modules year) "Angular Material Design" ∧
    containsStr (getLicense version modules year) "https://github.com/angular/material" ∧
    containsStr (getLicense version modules year) "@license MIT" ∧
    containsStr (getLicense version modules year) ("v" ++ version) ∧
    containsStr (getLicense version modules year) "material-tools" ∧
    containsStr (getLicense version modules year)
      ("Includes modules: " ++ joinLines ", " modules) ∧
    containsStr (getLicense version modules year) ("Copyright " ++ toString year) := by
  have hmap : ("" : String) ++ js.map = js.map := rfl
  refine ⟨?_, ?_, ?_, ?_, ?_, ?_, ?_, ?_, ?_⟩
  · cases theme with
    | none =>
      simp only [buildWrites, List.append_nil, List.mem_cons, List.not_mem_nil, or_false,
        Prod.mk.injEq] at hmem
      rcases hmem with ⟨hf, hc⟩ | ⟨hf, hc⟩ | ⟨hf, hc⟩ | ⟨hf, hc⟩ | ⟨hf, hc⟩ | ⟨hf, hc⟩ |
        ⟨hf, hc⟩ | ⟨hf, hc⟩
      · exact absurd hf hfL
      · exact ⟨js.source, hc⟩
      · exact ⟨js.compressed, hc⟩
      · exact absurd hf hfm
      · exact ⟨css.layout.source, hc⟩
      · exact ⟨css.layout.compressed, hc⟩
      · exact ⟨css.noLayout.source, hc⟩
      · exact ⟨css.noLayout.compressed, hc⟩
    | some t =>
      simp only [buildWrites, List.mem_append, List.mem_cons, List.not_mem_nil, or_false,
        Prod.mk.injEq] at hmem
      rcases hmem with (⟨hf, hc⟩ | ⟨hf, hc⟩ | ⟨hf, hc⟩ | ⟨hf, hc⟩ | ⟨hf, hc⟩ | ⟨hf, hc⟩ |
        ⟨hf, hc⟩ | ⟨hf, hc⟩) | (⟨hf, hc⟩ | ⟨hf, hc⟩)
      · exact absurd hf hfL
      · exact ⟨js.source, hc⟩
      · exact ⟨js.compressed, hc⟩
      · exact absurd hf hfm
      · exact ⟨css.layout.source, hc⟩
      · exact ⟨css.layout.compressed, hc⟩
      · exact ⟨css.noLayout.source, hc⟩
      · exact ⟨css.noLayout.compressed, hc⟩
      · exact ⟨t.compressed, hc⟩
      · exact ⟨t.source, hc⟩
  · cases theme <;> simp [buildWrites, hmap]
  · exact getLicense_contains version modules year _ _ (by simp [licenseLines])
      (List.infix_refl _)
  · exact getLicense_contains version modules year _ _ (by simp [licenseLines])
      (List.infix_refl _)
  · exact getLicense_contains version modules year _ _ (by simp [licenseLines])
      (List.infix_refl _)
  · exact getLicense_contains version modules year ("v" ++ version) ("v" ++ version)
      (by simp [licenseLines]) (List.infix_refl _)
  · exact getLicense_contains version modules year "material-tools"
      "Built with: material-tools" (by simp [licenseLines]) (by decide)
  · exact getLicense_contains version modules year _ _ (by simp [licenseLines])
      (List.infix_refl _)
  · exact getLicense_contains version modules year ("Copyright " ++ toString year)
      ("Copyright " ++ toString year ++ " Google Inc. All Rights Reserved.")
      (by simp [licenseLines])
      (by rw [String.data_append]; exact (List.prefix_append _ _).isInfix)

/-- Witness for C6 at the main JS artifact of a concrete build. -/
theorem build_writes_banner_witness :
    (∃ body, getLicense "1.1.0" ["core", "tooltip"] 2025 ++ "JSSRC" =
      getLicense "1.1.0" ["core", "tooltip"] 2025 ++ body) ∧
    ("angular-material" ++ ".min.js.map", "MAP") ∈
      buildWrites "angular-material" "LIC" ⟨"JSSRC", "JSMIN", "MAP"⟩
        ⟨⟨"CL", "CLM"⟩, ⟨"CN", "CNM"⟩⟩ none (getLicense "1.1.0" ["core", "tooltip"] 2025) ∧
    containsStr (getLicense "1.1.0" ["core", "tooltip"] 2025) "Angular Material Design" ∧
    containsStr (getLicense "1.1.0" ["core", "tooltip"] 2025)
      "https://github.com/angular/material" ∧
    containsStr (getLicense "1.1.0" ["core", "tooltip"] 2025) "@license MIT" ∧
    containsStr (getLicense "1.1.0" ["core", "tooltip"] 2025) ("v" ++ "1.1.0") ∧
    containsStr (getLicense "1.1.0" ["core", "tooltip"] 2025) "material-tools" ∧
    containsStr (getLicense "1.1.0" ["core", "tooltip"] 2025)
      ("Includes modules: " ++ joinLines ", " ["core", "tooltip"]) ∧
    containsStr (getLicense "1.1.0" ["core", "tooltip"] 2025)
      ("Copyright " ++ toString (2025 : Nat)) :=
  build_writes_banner "1.1.0" ["core", "tooltip"] 2025 "angular-material" "LIC"
    ⟨"JSSRC", "JSMIN", "MAP"⟩ ⟨⟨"CL", "CLM"⟩, ⟨"CN", "CNM"⟩⟩ none
    ("angular-material" ++ ".js") (getLicense "1.1.0" ["core", "tooltip"] 2025 ++ "JSSRC")
    (by simp [buildWrites]) (by decide) (by decide)

/-- C7 (amended): artifact assembly is a pure function of the inputs and
the wall-clock year: two runs with identical options, resolved inputs
and clock year produce byte-identical write lists. (The original claim
fails across year boundaries, since the banner embeds the current
year.) -/
theorem build_deterministic_same_year
    (base₁ base₂ lic₁ lic₂ : String) (js₁ js₂ : JSOut) (css₁ css₂ : CSSOut)
    (theme₁ theme₂ : Option CSSVariant) (version₁ version₂ : String)
    (modules₁ modules₂ : List String) (year₁ year₂ : Nat)
    (hbase : base₁ = base₂) (hlic : lic₁ = lic₂) (hjs : js₁ = js₂) (hcss : css₁ = css₂)
    (htheme : theme₁ = theme₂) (hver : version₁ = version₂) (hmods : modules₁ = modules₂)
    (hyear : year₁ = year₂) :
    buildWrites base₁ lic₁ js₁ css₁ theme₁ (getLicense version₁ modules₁ year₁) =
    buildWrites base₂ lic₂ js₂ css₂ theme₂ (getLicense version₂ modules₂ year₂) := by
  subst hbase
  subst hlic
  subst hjs
  subst hcss
  subst htheme
  subst hver
  subst hmods
  subst hyear
  rfl

/-- Witness for C7 on a concrete pair of identical runs. -/
theorem build_deterministic_same_year_witness :
    buildWrites "angular-material" "L" ⟨"s", "c", "m"⟩ ⟨⟨"ls", "lc"⟩, ⟨"ns", "nc"⟩⟩ none
      (getLicense "1.1.0" ["core"] 2025) =
    buildWrites "angular-material" "L" ⟨"s", "c", "m"⟩ ⟨⟨"ls", "lc"⟩, ⟨"ns", "nc"⟩⟩ none
      (getLicense "1.1.0" ["core"] 2025) :=
  build_deterministic_same_year "angular-material" "angular-material" "L" "L"
    ⟨"s", "c", "m"⟩ ⟨"s", "c", "m"⟩ ⟨⟨"ls", "lc"⟩, ⟨"ns", "nc"⟩⟩ ⟨⟨"ls", "lc"⟩, ⟨"ns", "nc"⟩⟩
    none none "1.1.0" "1.1.0" ["core"] ["core"] 2025 2025
    rfl rfl rfl rfl rfl rfl rfl rfl

set_option maxRecDepth 8192 in
/-- C7 counterexample: two builds with identical inputs run in different
calendar years produce different artifact bytes, because the banner
embeds the current year. -/
theorem build_differs_across_years :
    buildWrites "angular-material" "L" ⟨"s", "c", "m"⟩ ⟨⟨"ls", "lc"⟩, ⟨"ns", "nc"⟩⟩ none
      (getLicense "1.1.0" ["core"] 2025) ≠
    buildWrites "angular-material" "L" ⟨"s", "c", "m"⟩ ⟨⟨"ls", "lc"⟩, ⟨"ns", "nc"⟩⟩ none
      (getLicense "1.1.0" ["core"] 2026) := by decide

/-- C8: `build` writes exactly the fixed artifact list — LICENSE (copied
verbatim), the three JS artifacts, the four CSS artifacts, and the two
theme artifacts exactly when a theme is configured. -/
theorem build_writes_filenames (base licContent : String) (js : JSOut) (css : CSSOut)
    (theme : Option CSSVariant) (banner : String) :
    (buildWrites base licContent js css theme banner).map Prod.fst =
      (["LICENSE", base ++ ".js", base ++ ".min.js", base ++ ".min.js.map",
        base ++ ".css", base ++ ".min.css",
        base ++ "-no-layout.css", base ++ "-no-layout.min.css"] ++
       match theme with
       | some _ => [base ++ "-theme.min.css", base ++ "-theme.css"]
       | none => []) ∧
    ("LICENSE", licContent) ∈ buildWrites base licContent js css theme banner := by
  constructor
  · cases theme <;> simp [buildWrites]
  · cases theme <;> simp [buildWrites]

/-- C9: constructing `MaterialTools` with no options, or with options
lacking a destination, fails with the configuration error, and the
composite of construction and resolution fails with that same error for
every resolver — the resolver is never reached. -/
theorem constructor_fails_before_resolution (o : MaterialToolsOptions)
    (hdest : o.destination = none) (α : Type)
    (resolver : MaterialToolsOptions → Except String α) :
    mkMaterialTools none = Except.error "No options have been specified." ∧
    mkMaterialTools (some o) = Except.error "You have to specify a destination." ∧
    initThenResolve none resolver = Except.error "No options have been specified." ∧
    initThenResolve (some o) resolver =
      Except.error "You have to specify a destination." := by
  have hd : (applyDefaults o).destination = none := by
    rw [show (applyDefaults o).destination = o.destination from rfl, hdest]
  have h2 : mkMaterialTools (some o) = Except.error "You have to specify a destination." := by
    simp only [mkMaterialTools]
    rw [hd]
  refine ⟨rfl, h2, rfl, ?_⟩
  simp only [initThenResolve, h2, Except.bind]

/-- Witness for C9 with the all-absent options object. -/
theorem constructor_fails_before_resolution_witness :
    mkMaterialTools none = Except.error "No options have been specified." ∧
    mkMaterialTools (some ⟨none, none, none, none, none, none, none⟩) =
      Except.error "You have to specify a destination." ∧
    initThenResolve none (fun o => Except.ok o.destination) =
      Except.error "No options have been specified." ∧
    initThenResolve (some ⟨none, none, none, none, none, none, none⟩)
        (fun o => Except.ok o.destination) =
      Except.error "You have to specify a destination." :=
  constructor_fails_before_resolution ⟨none, none, none, none, none, none, none⟩ rfl _ _

end MaterialTools
